import Mathlib

/-!
Verification of the AstrBook forum adapter (`adapter/forum_memory.py` and
`adapter/astrbook_adapter.py`): a shallow embedding of the memory store
(`ForumMemory`), of the notification translator
(`AstrBookAdapter._handle_notification`), of the reconnect loop
(`AstrBookAdapter._ws_loop`) and of the startup gate
(`AstrBookAdapter._run`), together with theorems checking the
specification's testable properties against the embedded code.

Modelling conventions:
- Python strings are modelled as lists of characters (`Str`); Python
  indexes and slices `str` by code point exactly as `List Char` does.
- Python list slicing is embedded with its exact semantics, including the
  degenerate slice `xs[-0:] = xs`.
- `datetime` values are modelled by a natural number; the standard
  library pair `datetime.isoformat` / `datetime.fromisoformat`, an exact
  round-trip pair, is modelled by the decimal-digit rendering of that
  number (`Nat.digits` / `Nat.ofDigits`); `strftime` is modelled by an
  abstract executable rendering.
- Raising Python code is modelled with `Except`; code that catches all
  exceptions is modelled by a total function, which is the formal content
  of "returns normally to the caller".
-/

namespace AstrBook

/-- Python strings, modelled as lists of characters. -/
abbrev Str := List Char

/-- Character list of a string literal. -/
def str (s : String) : Str := s.data

/-- A metadata value: the values the adapter stores in
`MemoryItem.metadata` are ints, strings, or `None`. -/
inductive MVal where
  | mInt : Int → MVal
  | mStr : Str → MVal
  | mNone : MVal
deriving DecidableEq

/-- A Python dict of metadata, modelled as an association list with
first-match lookup (Python dict keys are unique). -/
abbrev Metadata := List (String × MVal)

/-- `dict.get(k)`: first value bound to `k`, `None` when absent. -/
def Metadata.get (md : Metadata) (k : String) : MVal :=
  match md with
  | [] => .mNone
  | (k2, v) :: rest => if k2 = k then v else Metadata.get rest k

/-- `MemoryItem` from `forum_memory.py`: one memory record.  The
`timestamp` (a `datetime` captured at construction) is modelled as a
natural number. -/
structure MemoryItem where
  memory_type : Str
  content : Str
  timestamp : Nat
  metadata : Metadata
deriving DecidableEq

/-- The serialized form of a `MemoryItem` produced by
`MemoryItem.to_dict`: a dict with keys `memory_type`, `content`,
`timestamp` (an ISO-8601 string, modelled by the decimal digits of the
instant it denotes) and `metadata`. -/
structure MemoryDict where
  memory_type : Str
  content : Str
  timestamp : List Nat
  metadata : Metadata
deriving DecidableEq

/-- `MemoryItem.to_dict`: serialize one item; `timestamp.isoformat()` is
modelled by the decimal digits of the timestamp. -/
def MemoryItem.to_dict (m : MemoryItem) : MemoryDict :=
  { memory_type := m.memory_type
    content := m.content
    timestamp := Nat.digits 10 m.timestamp
    metadata := m.metadata }

/-- `MemoryItem.from_dict`: deserialize one item;
`datetime.fromisoformat` is modelled by reading the decimal digits back.
(`data.get("metadata", {})` always finds the key on dicts produced by
`to_dict`, which is the record's `metadata` field.) -/
def MemoryItem.from_dict (d : MemoryDict) : MemoryItem :=
  { memory_type := d.memory_type
    content := d.content
    timestamp := Nat.ofDigits 10 d.timestamp
    metadata := d.metadata }

/-- The state of the persistence file `forum_memory.json`: absent,
unreadable or unparsable, or holding a serialized log. -/
inductive DiskState where
  | absent : DiskState
  | corrupt : DiskState
  | stored : List MemoryDict → DiskState
deriving DecidableEq

/-- The body of `ForumMemory._save` before its `except` clause:
`json.dump` of the serialized log, which may raise (modelled by
`writeFails`). -/
def dump_attempt (writeFails : Bool) (mems : List MemoryItem) :
    Except Str DiskState :=
  if writeFails then .error (str "write failure")
  else .ok (.stored (mems.map MemoryItem.to_dict))

/-- `ForumMemory._save`: attempt the dump; a failure is caught and only
logged, leaving the previous disk state, and the function returns
normally (totality of this definition). -/
def save_mem (writeFails : Bool) (disk : DiskState)
    (mems : List MemoryItem) : DiskState :=
  match dump_attempt writeFails mems with
  | .ok d => d
  | .error _ => disk

/-- `ForumMemory._load`: an absent file leaves the fresh empty log; a
read/parse failure is caught and leaves the empty log; a stored log is
deserialized with `MemoryItem.from_dict`. -/
def load_mem (disk : DiskState) : List MemoryItem :=
  match disk with
  | .absent => []
  | .corrupt => []
  | .stored data => data.map MemoryItem.from_dict

theorem from_dict_to_dict (m : MemoryItem) :
    MemoryItem.from_dict (MemoryItem.to_dict m) = m := by
  cases m
  simp [MemoryItem.to_dict, MemoryItem.from_dict, Nat.ofDigits_digits]

/-- C2: serializing any memory log (each `MemoryItem` via `to_dict`, the
list to the persisted JSON form written by `_save`) and reloading it via
`_load` / `from_dict` reproduces an identical sequence of items — same
kind, content, timestamp and metadata, in the same order. -/
theorem c2_roundtrip (mems : List MemoryItem) (disk : DiskState) :
    (mems.map MemoryItem.to_dict).map MemoryItem.from_dict = mems
    ∧ load_mem (save_mem false disk mems) = mems := by
  have h : (mems.map MemoryItem.to_dict).map MemoryItem.from_dict = mems := by
    rw [List.map_map]
    exact List.map_congr_left (fun m _ => from_dict_to_dict m) |>.trans (List.map_id mems)
  exact ⟨h, by simpa [save_mem, dump_attempt, load_mem] using h⟩

/-- Python's tail slice `xs[-n:]` for a nonnegative `n`: the last `n`
elements — except that `xs[-0:]` is `xs[0:]`, the whole list. -/
def pyLastSlice (n : Nat) (xs : List α) : List α :=
  if n = 0 then xs else xs.drop (xs.length - n)

/-- Construction of the `MemoryItem` inside `ForumMemory.add_memory`:
`metadata or {}` and a timestamp captured at construction time. -/
def mkItem (memory_type content : Str) (now : Nat)
    (metadata : Option Metadata) : MemoryItem :=
  { memory_type := memory_type
    content := content
    timestamp := now
    metadata := metadata.getD [] }

/-- The in-memory effect of `ForumMemory.add_memory`: append the new
item, then trim with `self._memories[-self._max_items:]` whenever the
length exceeds `max_items`. -/
def add_memory (max_items : Nat) (mems : List MemoryItem)
    (memory_type content : Str) (now : Nat)
    (metadata : Option Metadata) : List MemoryItem :=
  let ms := mems ++ [mkItem memory_type content now metadata]
  if max_items < ms.length then pyLastSlice max_items ms else ms

/-- The arguments of one `add_memory` call (with the clock value observed
during the call). -/
structure AddCall where
  memory_type : Str
  content : Str
  metadata : Option Metadata
  now : Nat
deriving DecidableEq

/-- The `MemoryItem` a given `add_memory` call appends. -/
def AddCall.item (c : AddCall) : MemoryItem :=
  mkItem c.memory_type c.content c.now c.metadata

/-- A sequence of `add_memory` calls applied in order. -/
def add_all (max_items : Nat) (init : List MemoryItem)
    (calls : List AddCall) : List MemoryItem :=
  calls.foldl
    (fun ms c => add_memory max_items ms c.memory_type c.content c.now c.metadata)
    init

theorem add_all_eq (M : Nat) (hM : 1 ≤ M) :
    ∀ (calls : List AddCall) (init : List MemoryItem), init.length ≤ M →
      add_all M init calls
        = (init ++ calls.map AddCall.item).drop (init.length + calls.length - M) := by
  intro calls
  induction calls with
  | nil =>
    intro init h
    simp [add_all, Nat.sub_eq_zero_of_le h]
  | cons c rest ih =>
    intro init h
    have hstep : add_all M init (c :: rest)
        = add_all M (add_memory M init c.memory_type c.content c.now c.metadata) rest := rfl
    have hunfold : add_memory M init c.memory_type c.content c.now c.metadata
        = if M < (init ++ [c.item]).length then pyLastSlice M (init ++ [c.item])
          else init ++ [c.item] := rfl
    rcases Nat.lt_or_ge init.length M with hlt | hge
    · -- no trim: the appended list still fits
      have hfit : ¬ M < (init ++ [c.item]).length := by
        simp only [List.length_append, List.length_cons, List.length_nil]
        omega
      have hmem : add_memory M init c.memory_type c.content c.now c.metadata
          = init ++ [c.item] := by rw [hunfold, if_neg hfit]
      rw [hstep, hmem, ih (init ++ [c.item])
        (by simp only [List.length_append, List.length_cons, List.length_nil]; omega)]
      have harr : (init ++ [c.item]).length + rest.length - M
          = init.length + (c :: rest).length - M := by
        simp only [List.length_append, List.length_cons, List.length_nil]
        omega
      rw [harr, List.append_assoc]
      rfl
    · -- the list is full: the oldest element is evicted
      have heq : init.length = M := Nat.le_antisymm h hge
      have hover : M < (init ++ [c.item]).length := by
        simp only [List.length_append, List.length_cons, List.length_nil]
        omega
      have hlen : (init ++ [c.item]).length - M = 1 := by
        simp only [List.length_append, List.length_cons, List.length_nil]
        omega
      have hmem : add_memory M init c.memory_type c.content c.now c.metadata
          = (init ++ [c.item]).drop 1 := by
        rw [hunfold, if_pos hover]
        simp only [pyLastSlice]
        rw [if_neg (by omega : ¬ M = 0), hlen]
      have hlen1 : ((init ++ [c.item]).drop 1).length = M := by
        simp only [List.length_drop, List.length_append, List.length_cons,
          List.length_nil]
        omega
      rw [hstep, hmem, ih _ (le_of_eq hlen1), hlen1]
      have harr2 : M + rest.length - M = rest.length := by omega
      have hzero : (1 : Nat) - (init ++ [c.item]).length = 0 := by
        simp only [List.length_append, List.length_cons, List.length_nil]
        omega
      have hassoc : ((init ++ [c.item]) ++ rest.map AddCall.item).drop 1
          = (init ++ [c.item]).drop 1 ++ rest.map AddCall.item := by
        rw [List.drop_append_eq_append_drop, hzero, List.drop_zero]
      rw [harr2, ← hassoc, List.drop_drop, List.append_assoc]
      have harr : init.length + (c :: rest).length - M = 1 + rest.length := by
        simp only [List.length_cons]
        omega
      rw [harr]
      rfl

/-- C1 (amended): provided the configured `max_items` is at least 1, any
sequence of `add_memory` calls on an initially empty store whose count
exceeds `max_items` leaves a log of length exactly `max_items` holding
exactly the `max_items` most recently appended items in insertion order
(FIFO eviction). -/
theorem c1_fifo_eviction (M : Nat) (calls : List AddCall)
    (hM : 1 ≤ M) (hN : M < calls.length) :
    add_all M [] calls = (calls.map AddCall.item).drop (calls.length - M)
    ∧ (add_all M [] calls).length = M := by
  have h := add_all_eq M hM calls [] (by simp)
  simp only [List.nil_append, List.length_nil, Nat.zero_add] at h
  refine ⟨h, ?_⟩
  rw [h]
  simp
  omega

/-- C1 witness: with `max_items = 2` and three appends, the log keeps the
last two items. -/
theorem c1_fifo_eviction_witness :
    add_all 2 []
        [⟨str "browsed", str "a", none, 1⟩,
         ⟨str "browsed", str "b", none, 2⟩,
         ⟨str "browsed", str "c", none, 3⟩]
      = (([⟨str "browsed", str "a", none, 1⟩,
           ⟨str "browsed", str "b", none, 2⟩,
           ⟨str "browsed", str "c", none, 3⟩] : List AddCall).map AddCall.item).drop
          (([⟨str "browsed", str "a", none, 1⟩,
             ⟨str "browsed", str "b", none, 2⟩,
             ⟨str "browsed", str "c", none, 3⟩] : List AddCall).length - 2)
    ∧ (add_all 2 []
        [⟨str "browsed", str "a", none, 1⟩,
         ⟨str "browsed", str "b", none, 2⟩,
         ⟨str "browsed", str "c", none, 3⟩]).length = 2 :=
  c1_fifo_eviction 2
    [⟨str "browsed", str "a", none, 1⟩,
     ⟨str "browsed", str "b", none, 2⟩,
     ⟨str "browsed", str "c", none, 3⟩]
    (by decide) (by decide)

/-- C1 counterexample: with `max_items = 0` the trimming slice is
`self._memories[-0:]`, which is the whole list, so a single append on an
empty store (a sequence whose count 1 exceeds `max_items = 0`) leaves a
log of length 1, not of length `max_items = 0`. -/
theorem c1_counterexample :
    0 < ([⟨str "browsed", str "a", none, 1⟩] : List AddCall).length
    ∧ (add_all 0 [] [⟨str "browsed", str "a", none, 1⟩]).length ≠ 0 := by
  constructor
  · decide
  · decide

/-- Python's head slice `xs[:l]` for an `int` bound `l`: the first `l`
elements when `l ≥ 0`, all but the last `-l` elements when `l < 0`. -/
def pySliceTo (l : Int) (xs : List α) : List α :=
  if 0 ≤ l then xs.take l.toNat else xs.take (xs.length - (-l).toNat)

/-- `ForumMemory.get_memories`: optional type filter (Python truthiness:
`if memory_type:` is false for `None` and for the empty string), then
newest first, then an optional limit (`if limit:` is false for `None`
and for 0). -/
def get_memories (mems : List MemoryItem) (memory_type : Option Str)
    (limit : Option Int) : List MemoryItem :=
  let items := mems
  let items : List MemoryItem := match memory_type with
    | some t => if t ≠ [] then items.filter (fun m => m.memory_type == t) else items
    | none => items
  let items := items.reverse
  match limit with
  | some l => if l ≠ 0 then pySliceTo l items else items
  | none => items

/-- `datetime.strftime("%m-%d %H:%M")`, standard-library timestamp
formatting, modelled by an abstract executable rendering of the
instant. -/
def strftime_md_hm (t : Nat) : Str := str (toString t)

/-- `ForumMemory._get_type_emoji`: dict lookup with default `📌`. -/
def get_type_emoji (memory_type : Str) : Str :=
  if memory_type = str "browsed" then str "👀"
  else if memory_type = str "mentioned" then str "📢"
  else if memory_type = str "replied" then str "💬"
  else if memory_type = str "new_thread" then str "📝"
  else if memory_type = str "created" then str "✍️"
  else if memory_type = str "diary" then str "📔"
  else str "📌"

/-- `"\n".join(lines)`. -/
def joinLines : List Str → Str
  | [] => []
  | [l] => l
  | l :: l2 :: rest => l ++ '\n' :: joinLines (l2 :: rest)

/-- Number of lines of a rendered block: newline count plus one. -/
def line_count (s : Str) : Nat := List.count '\n' s + 1

/-- Header line of `ForumMemory.get_summary`. -/
def summary_header : Str := str "我最近在 AstrBook 论坛的活动："

/-- The per-item line of `get_summary`:
`f"  {type_emoji} [{time_str}] {item.content}"`. -/
def summary_line (item : MemoryItem) : Str :=
  str "  " ++ get_type_emoji item.memory_type ++ str " ["
    ++ strftime_md_hm item.timestamp ++ str "] " ++ item.content

/-- The empty-store message of `get_summary`. -/
def no_summary_msg : Str := str "最近没有论坛活动记录。"

/-- `ForumMemory.get_summary`: the most recent `limit` items newest
first, rendered under a header line, or the empty-store message. -/
def get_summary (mems : List MemoryItem) (limit : Int) : Str :=
  if get_memories mems none (some limit) = [] then no_summary_msg
  else joinLines (summary_header
    :: (get_memories mems none (some limit)).map summary_line)

/-- Rendering of an `int` inside an f-string. -/
def int_str (i : Int) : Str := str (toString i)

/-- The filter of `ForumMemory.get_context_for_thread`:
`m.metadata.get("thread_id") == thread_id`. -/
def thread_match (tid : Int) (m : MemoryItem) : Bool :=
  Metadata.get m.metadata "thread_id" == MVal.mInt tid

/-- Header line of `get_context_for_thread`. -/
def ctx_header (tid : Int) : Str :=
  str "与帖子 #" ++ int_str tid ++ str " 相关的活动："

/-- The "no activity for this thread" message of
`get_context_for_thread`. -/
def no_activity_msg (tid : Int) : Str :=
  str "没有与帖子 #" ++ int_str tid ++ str " 相关的活动记录。"

/-- The per-item line of `get_context_for_thread`. -/
def ctx_line (item : MemoryItem) : Str :=
  str "  - [" ++ strftime_md_hm item.timestamp ++ str "] " ++ item.content

/-- `ForumMemory.get_context_for_thread`: filter by the `thread_id`
metadata key, keep the last five (`items[-5:]`) in stored (oldest first)
order. -/
def get_context_for_thread (mems : List MemoryItem) (tid : Int) : Str :=
  if mems.filter (thread_match tid) = [] then no_activity_msg tid
  else joinLines (ctx_header tid
    :: (pyLastSlice 5 (mems.filter (thread_match tid))).map ctx_line)

/-- `ForumMemory.add_memory` together with its write-through `_save`. -/
def add_memory_persist (writeFails : Bool) (max_items : Nat)
    (mems : List MemoryItem) (disk : DiskState) (c : AddCall) :
    List MemoryItem × DiskState :=
  let mems2 := add_memory max_items mems c.memory_type c.content c.now c.metadata
  (mems2, save_mem writeFails disk mems2)

/-- `ForumMemory.clear` together with its write-through `_save`. -/
def clear_mem (writeFails : Bool) (disk : DiskState) :
    List MemoryItem × DiskState :=
  ([], save_mem writeFails disk [])

/-- C9: at `get_memories`, `limit=0` and an empty `memory_type` string
are falsy, so they restrict nothing — the call returns every item,
newest first, exactly as when no argument is supplied; only a nonempty
type string filters and only a nonzero limit truncates. -/
theorem c9_truthiness (mems : List MemoryItem) (t : Str) (l : Int)
    (ht : t ≠ []) (hl : l ≠ 0) (hl2 : 0 ≤ l) :
    get_memories mems (some []) (some 0) = mems.reverse
    ∧ get_memories mems none none = mems.reverse
    ∧ get_memories mems (some t) (some 0)
        = (mems.filter (fun m => m.memory_type == t)).reverse
    ∧ get_memories mems none (some l) = mems.reverse.take l.toNat := by
  refine ⟨?_, rfl, ?_, ?_⟩
  · simp [get_memories]
  · simp [get_memories, ht]
  · simp [get_memories, hl, pySliceTo, hl2]

/-- C9 witness: a two-item store, type filter `browsed`, limit 1. -/
theorem c9_truthiness_witness :
    get_memories
        [⟨str "browsed", str "a", 1, []⟩, ⟨str "replied", str "b", 2, []⟩]
        (some []) (some 0)
      = [⟨str "browsed", str "a", 1, []⟩, ⟨str "replied", str "b", 2, []⟩].reverse
    ∧ get_memories
        [⟨str "browsed", str "a", 1, []⟩, ⟨str "replied", str "b", 2, []⟩]
        none none
      = [⟨str "browsed", str "a", 1, []⟩, ⟨str "replied", str "b", 2, []⟩].reverse
    ∧ get_memories
        [⟨str "browsed", str "a", 1, []⟩, ⟨str "replied", str "b", 2, []⟩]
        (some (str "browsed")) (some 0)
      = ([⟨str "browsed", str "a", 1, []⟩, ⟨str "replied", str "b", 2, []⟩].filter
          (fun m => m.memory_type == str "browsed")).reverse
    ∧ get_memories
        [⟨str "browsed", str "a", 1, []⟩, ⟨str "replied", str "b", 2, []⟩]
        none (some 1)
      = [⟨str "browsed", str "a", 1, []⟩,
         ⟨str "replied", str "b", 2, []⟩].reverse.take (Int.toNat 1) :=
  c9_truthiness
    [⟨str "browsed", str "a", 1, []⟩, ⟨str "replied", str "b", 2, []⟩]
    (str "browsed") 1 (by decide) (by decide) (by decide)

/-- C5 (amended): `get_summary` with limit 3 on a ten-item store returns
a block of one header line followed by exactly three item lines, one per
item, covering the newest three items in newest-to-oldest order; on a
store holding exactly one item, `get_summary 1` returns a two-line block
— the header plus one line naming that memory — and not the empty-store
message. -/
theorem c5_summary (mems : List MemoryItem) (item : MemoryItem)
    (h : mems.length = 10) :
    get_summary mems 3
      = joinLines (summary_header :: (mems.reverse.take 3).map summary_line)
    ∧ ((mems.reverse.take 3).map summary_line).length = 3
    ∧ get_summary [item] 1 = joinLines [summary_header, summary_line item]
    ∧ get_summary [item] 1 ≠ no_summary_msg := by
  have hitems : get_memories mems none (some 3) = mems.reverse.take 3 := by
    have h3 : Int.toNat 3 = 3 := rfl
    norm_num [get_memories, pySliceTo, h3]
  have hlen3 : (mems.reverse.take 3).length = 3 := by
    rw [List.length_take, List.length_reverse, h]
    decide
  have hne : mems.reverse.take 3 ≠ [] := by
    intro hnil
    rw [hnil] at hlen3
    simp at hlen3
  have hitem1 : get_memories [item] none (some 1) = [item] := by
    norm_num [get_memories, pySliceTo]
  have hsingle : get_summary [item] 1
      = joinLines [summary_header, summary_line item] := by
    unfold get_summary
    rw [hitem1, if_neg (by simp)]
    rfl
  refine ⟨?_, by rw [List.length_map, hlen3], hsingle, ?_⟩
  · unfold get_summary
    rw [hitems, if_neg hne]
  · rw [hsingle]
    intro hcontr
    have hj : joinLines [summary_header, summary_line item]
        = summary_header ++ '\n' :: summary_line item := rfl
    rw [hj] at hcontr
    have h1 : (summary_header ++ '\n' :: summary_line item).take 1
        = summary_header.take 1 :=
      List.take_append_of_le_length (by decide)
    have h2 : summary_header.take 1 = no_summary_msg.take 1 := by
      rw [← h1, hcontr]
    exact absurd h2 (by decide)

/-- Ten concrete memory items for the C5 witness and counterexample. -/
def ten_items : List MemoryItem :=
  (List.range 10).map
    (fun n => { memory_type := str "browsed", content := str "x",
                timestamp := n, metadata := [] })

/-- C5 witness: the amended statement at a concrete ten-item store and a
concrete single item. -/
theorem c5_summary_witness :
    get_summary ten_items 3
      = joinLines (summary_header :: (ten_items.reverse.take 3).map summary_line)
    ∧ ((ten_items.reverse.take 3).map summary_line).length = 3
    ∧ get_summary [⟨str "mentioned", str "X", 0, []⟩] 1
      = joinLines [summary_header, summary_line ⟨str "mentioned", str "X", 0, []⟩]
    ∧ get_summary [⟨str "mentioned", str "X", 0, []⟩] 1 ≠ no_summary_msg :=
  c5_summary ten_items ⟨str "mentioned", str "X", 0, []⟩ (by decide)

/-- C5 counterexample: on a ten-item store `get_summary 3` renders a
block of four lines — the header line plus the three item lines — and
not exactly three lines; on a one-item store `get_summary 1` renders two
lines, not a single-line block. -/
theorem c5_counterexample :
    ten_items.length = 10
    ∧ line_count (get_summary ten_items 3) = 4
    ∧ line_count (get_summary [⟨str "mentioned", str "X", 0, []⟩] 1) = 2 := by
  refine ⟨by decide, by decide, by decide⟩

/-- C6: with seven stored items whose `thread_id` metadata equals the
queried id (any other items unrelated), `get_context_for_thread` renders
a header plus exactly the five most recent matching items, in stored
oldest-to-newest order; on a store with no matching item it returns the
fixed "no activity" message. -/
theorem c6_thread_context (mems mems2 : List MemoryItem) (tid : Int)
    (h7 : (mems.filter (thread_match tid)).length = 7)
    (h0 : mems2.filter (thread_match tid) = []) :
    get_context_for_thread mems tid
      = joinLines (ctx_header tid
          :: ((mems.filter (thread_match tid)).drop 2).map ctx_line)
    ∧ ((mems.filter (thread_match tid)).drop 2).length = 5
    ∧ get_context_for_thread mems2 tid = no_activity_msg tid := by
  have hne : mems.filter (thread_match tid) ≠ [] := by
    intro hnil
    rw [hnil] at h7
    simp at h7
  have hslice : pyLastSlice 5 (mems.filter (thread_match tid))
      = (mems.filter (thread_match tid)).drop 2 := by
    simp only [pyLastSlice]
    rw [if_neg (by omega : ¬ (5 : Nat) = 0), h7]
  refine ⟨?_, by rw [List.length_drop, h7], ?_⟩
  · unfold get_context_for_thread
    rw [if_neg hne, hslice]
  · unfold get_context_for_thread
    rw [h0, if_pos rfl]

/-- Concrete store for the C6 witness: seven items on thread 42
interleaved with three unrelated items. -/
def w6_mems : List MemoryItem :=
  [⟨str "browsed", str "m1", 1, [("thread_id", MVal.mInt 42)]⟩,
   ⟨str "browsed", str "u1", 2, [("thread_id", MVal.mInt 7)]⟩,
   ⟨str "replied", str "m2", 3, [("thread_id", MVal.mInt 42)]⟩,
   ⟨str "browsed", str "m3", 4, [("thread_id", MVal.mInt 42)]⟩,
   ⟨str "browsed", str "u2", 5, []⟩,
   ⟨str "mentioned", str "m4", 6, [("thread_id", MVal.mInt 42)]⟩,
   ⟨str "browsed", str "m5", 7, [("thread_id", MVal.mInt 42)]⟩,
   ⟨str "browsed", str "u3", 8, [("thread_id", MVal.mNone)]⟩,
   ⟨str "replied", str "m6", 9, [("thread_id", MVal.mInt 42)]⟩,
   ⟨str "browsed", str "m7", 10, [("thread_id", MVal.mInt 42)]⟩]

/-- C6 witness: the statement at the concrete ten-item store above and
at a store with no item for thread 42. -/
theorem c6_thread_context_witness :
    get_context_for_thread w6_mems 42
      = joinLines (ctx_header 42
          :: ((w6_mems.filter (thread_match 42)).drop 2).map ctx_line)
    ∧ ((w6_mems.filter (thread_match 42)).drop 2).length = 5
    ∧ get_context_for_thread [⟨str "browsed", str "u1", 2, [("thread_id", MVal.mInt 7)]⟩] 42
      = no_activity_msg 42 :=
  c6_thread_context w6_mems
    [⟨str "browsed", str "u1", 2, [("thread_id", MVal.mInt 7)]⟩] 42
    (by decide) (by decide)

/-- C7: persistence failures never propagate to callers of the memory
store: `add_memory` and `clear` are total functions of their inputs —
they return normally whether or not the write fails, and the in-memory
log they produce does not depend on the write outcome — and a read or
parse failure at construction time (`_load`) yields the empty-log state
instead of an exception. -/
theorem c7_persistence_isolation (writeFails : Bool) (max_items : Nat)
    (mems : List MemoryItem) (disk : DiskState) (c : AddCall) :
    (add_memory_persist writeFails max_items mems disk c).1
      = (add_memory_persist false max_items mems disk c).1
    ∧ (clear_mem writeFails disk).1 = []
    ∧ load_mem .corrupt = [] ∧ load_mem .absent = [] :=
  ⟨rfl, rfl, rfl, rfl⟩

/-- The fields of an inbound notification frame, as
`AstrBookAdapter._handle_notification` extracts them (`data.get` with
the source's defaults already applied to the string fields). -/
structure NotificationEvent where
  thread_id : Option Int
  thread_title : Str
  from_user_id : Option Int
  from_username : Str
  content : Str
  reply_id : Option Int
  msg_type : Str
deriving DecidableEq

/-- The Python value `data.get("thread_id")` (possibly `None`) as it is
stored in the metadata dict. -/
def optIntVal : Option Int → MVal
  | some i => .mInt i
  | none => .mNone

/-- The metadata dict built by `_handle_notification` for both the
mention and the reply branches. -/
def notification_metadata (ev : NotificationEvent) : Metadata :=
  [("thread_id", optIntVal ev.thread_id),
   ("thread_title", .mStr ev.thread_title),
   ("from_user", .mStr ev.from_username)]

/-- The `MemoryItem` that `AstrBookAdapter._handle_notification` hands
to `ForumMemory.add_memory`: kind `mentioned` for a mention and
`replied` otherwise, with the notification content sliced by
`content[:50]` and an ellipsis appended unconditionally. -/
def handle_notification_memory (now : Nat) (ev : NotificationEvent) : MemoryItem :=
  if ev.msg_type = str "mention" then
    { memory_type := str "mentioned"
      content := str "被 @" ++ ev.from_username ++ str " 在《" ++ ev.thread_title
        ++ str "》中提及: " ++ ev.content.take 50 ++ str "..."
      timestamp := now
      metadata := notification_metadata ev }
  else
    { memory_type := str "replied"
      content := ev.from_username ++ str " 回复了你在《" ++ ev.thread_title
        ++ str "》中的发言: " ++ ev.content.take 50 ++ str "..."
      timestamp := now
      metadata := notification_metadata ev }

/-- C4: for every mention notification whose content exceeds 50
characters, the stored item's content contains exactly the first 50
characters of the notification content followed by the ellipsis marker,
the item's kind is `mentioned`, and its metadata holds
`thread_id`, `thread_title` and `from_user`. -/
theorem c4_mention_truncation (ev : NotificationEvent) (now : Nat)
    (hty : ev.msg_type = str "mention") (hlen : 50 < ev.content.length) :
    (∃ p, (handle_notification_memory now ev).content
        = p ++ (ev.content.take 50 ++ str "..."))
    ∧ (ev.content.take 50).length = 50
    ∧ (handle_notification_memory now ev).memory_type = str "mentioned"
    ∧ (handle_notification_memory now ev).metadata = notification_metadata ev := by
  have hbr : handle_notification_memory now ev
      = { memory_type := str "mentioned"
          content := str "被 @" ++ ev.from_username ++ str " 在《" ++ ev.thread_title
            ++ str "》中提及: " ++ ev.content.take 50 ++ str "..."
          timestamp := now
          metadata := notification_metadata ev } := by
    unfold handle_notification_memory
    rw [if_pos hty]
  refine ⟨⟨str "被 @" ++ ev.from_username ++ str " 在《" ++ ev.thread_title
      ++ str "》中提及: ", ?_⟩, ?_, by rw [hbr], by rw [hbr]⟩
  · rw [hbr]
    simp [List.append_assoc]
  · rw [List.length_take]
    omega

/-- Concrete mention event with a 51-character content for the C4
witness. -/
def w4_event : NotificationEvent :=
  { thread_id := some 7
    thread_title := str "标题"
    from_user_id := some 3
    from_username := str "alice"
    content := List.replicate 51 'x'
    reply_id := none
    msg_type := str "mention" }

/-- C4 witness: the statement at the concrete 51-character mention. -/
theorem c4_mention_truncation_witness :
    (∃ p, (handle_notification_memory 0 w4_event).content
        = p ++ (w4_event.content.take 50 ++ str "..."))
    ∧ (w4_event.content.take 50).length = 50
    ∧ (handle_notification_memory 0 w4_event).memory_type = str "mentioned"
    ∧ (handle_notification_memory 0 w4_event).metadata
        = notification_metadata w4_event :=
  c4_mention_truncation w4_event 0 rfl (by decide)

/-- C10: for every notification `_handle_notification` processes
(mention, reply or sub_reply), the stored content ends with the ellipsis
marker whatever the length of the notification content; when that
content is 50 characters or shorter it is stored in full and the
ellipsis is still appended, so the ellipsis never indicates whether
truncation occurred. -/
theorem c10_unconditional_ellipsis (ev : NotificationEvent) (now : Nat)
    (_hty : ev.msg_type = str "mention" ∨ ev.msg_type = str "reply"
      ∨ ev.msg_type = str "sub_reply") :
    (∃ p, (handle_notification_memory now ev).content = p ++ str "...")
    ∧ (ev.content.length ≤ 50 →
        ∃ p, (handle_notification_memory now ev).content
          = p ++ (ev.content ++ str "...")) := by
  unfold handle_notification_memory
  by_cases h : ev.msg_type = str "mention"
  · rw [if_pos h]
    refine ⟨⟨str "被 @" ++ ev.from_username ++ str " 在《" ++ ev.thread_title
        ++ str "》中提及: " ++ ev.content.take 50, rfl⟩, fun hle => ?_⟩
    refine ⟨str "被 @" ++ ev.from_username ++ str " 在《" ++ ev.thread_title
        ++ str "》中提及: ", ?_⟩
    rw [List.take_of_length_le hle]
    simp [List.append_assoc]
  · rw [if_neg h]
    refine ⟨⟨ev.from_username ++ str " 回复了你在《" ++ ev.thread_title
        ++ str "》中的发言: " ++ ev.content.take 50, rfl⟩, fun hle => ?_⟩
    refine ⟨ev.from_username ++ str " 回复了你在《" ++ ev.thread_title
        ++ str "》中的发言: ", ?_⟩
    rw [List.take_of_length_le hle]
    simp [List.append_assoc]

/-- C10 witness: a reply notification whose content is 2 characters —
stored in full, ellipsis still appended. -/
theorem c10_unconditional_ellipsis_witness :
    (∃ p, (handle_notification_memory 0
        ⟨some 7, str "标题", some 3, str "bob", str "hi", none, str "reply"⟩).content
      = p ++ str "...")
    ∧ (∃ p, (handle_notification_memory 0
        ⟨some 7, str "标题", some 3, str "bob", str "hi", none, str "reply"⟩).content
      = p ++ (str "hi" ++ str "...")) :=
  ⟨(c10_unconditional_ellipsis
      ⟨some 7, str "标题", some 3, str "bob", str "hi", none, str "reply"⟩ 0
      (Or.inr (Or.inl rfl))).1,
   (c10_unconditional_ellipsis
      ⟨some 7, str "标题", some 3, str "bob", str "hi", none, str "reply"⟩ 0
      (Or.inr (Or.inl rfl))).2 (by decide)⟩

/-- The outcome of one `_ws_connect` call as `_ws_loop` observes it:
either the call raised (the connection attempt failed, caught by the
loop's `except` arms), or the connection succeeded and the call returned
normally after its receive loop ended — on a mid-stream
`WSMsgType.ERROR` frame, on a server close, or on stream exhaustion. -/
inductive WsOutcome where
  | exn : WsOutcome
  | errorFrame : WsOutcome
  | closedFrame : WsOutcome
  | streamEnd : WsOutcome
deriving DecidableEq

/-- `self._reconnect_delay`, set in `__init__`. -/
def initial_reconnect_delay : Nat := 5

/-- `self._max_reconnect_delay`, set in `__init__`. -/
def max_reconnect_delay : Nat := 60

/-- The delay `_ws_loop` sleeps in one iteration: the running delay when
`_ws_connect` raised, else the freshly reset `self._reconnect_delay`. -/
def ws_step_delay (d : Nat) (o : WsOutcome) : Nat :=
  match o with
  | .exn => d
  | _ => initial_reconnect_delay

/-- The sleeps `_ws_loop` performs over a script of connection outcomes:
each iteration sleeps the current delay, then doubles it, capped at
`self._max_reconnect_delay`. -/
def ws_loop_delays : Nat → List WsOutcome → List Nat
  | _, [] => []
  | d, o :: rest =>
    ws_step_delay d o
      :: ws_loop_delays (min (ws_step_delay d o * 2) max_reconnect_delay) rest

/-- The reconnect delays observed from adapter startup
(`reconnect_delay = self._reconnect_delay`). -/
def ws_delays (s : List WsOutcome) : List Nat :=
  ws_loop_delays initial_reconnect_delay s

/-- The running delay left after a script of outcomes. -/
def ws_final (d : Nat) (s : List WsOutcome) : Nat :=
  s.foldl (fun d o => min (ws_step_delay d o * 2) max_reconnect_delay) d

theorem min_cap_double (c d i : Nat) :
    min (min (d * 2) c * 2 ^ i) c = min (d * 2 * 2 ^ i) c := by
  rcases Nat.le_total (d * 2) c with h | h
  · rw [Nat.min_eq_left h]
  · have h1 : (1 : Nat) ≤ 2 ^ i := Nat.one_le_two_pow
    have h2 : c ≤ c * 2 ^ i := by
      have := Nat.mul_le_mul_left c h1
      simpa using this
    have h3 : d * 2 ≤ d * 2 * 2 ^ i := by
      have := Nat.mul_le_mul_left (d * 2) h1
      simpa using this
    rw [Nat.min_eq_right h, Nat.min_eq_right h2,
      Nat.min_eq_right (le_trans h h3)]

theorem ws_loop_delays_exn (n : Nat) :
    ∀ d, d ≤ max_reconnect_delay →
      ws_loop_delays d (List.replicate n .exn)
        = (List.range n).map (fun i => min (d * 2 ^ i) max_reconnect_delay) := by
  induction n with
  | zero => intro d _; rfl
  | succ n ih =>
    intro d hd
    rw [List.replicate_succ]
    simp only [ws_loop_delays, ws_step_delay]
    rw [ih (min (d * 2) max_reconnect_delay) (Nat.min_le_right _ _)]
    rw [List.range_succ_eq_map, List.map_cons, List.map_map]
    congr 1
    · rw [pow_zero, Nat.mul_one, Nat.min_eq_left hd]
    · refine List.map_congr_left (fun i _ => ?_)
      show min (min (d * 2) max_reconnect_delay * 2 ^ i) max_reconnect_delay
          = min (d * 2 ^ (i + 1)) max_reconnect_delay
      rw [min_cap_double]
      congr 1
      ring

theorem ws_loop_delays_append (t : List WsOutcome) :
    ∀ (s : List WsOutcome) (d : Nat),
      ws_loop_delays d (s ++ t)
        = ws_loop_delays d s ++ ws_loop_delays (ws_final d s) t := by
  intro s
  induction s with
  | nil => intro d; rfl
  | cons o rest ih =>
    intro d
    have h1 : ws_loop_delays d ((o :: rest) ++ t)
        = ws_step_delay d o
          :: ws_loop_delays (min (ws_step_delay d o * 2) max_reconnect_delay)
            (rest ++ t) := rfl
    have h2 : ws_final d (o :: rest)
        = ws_final (min (ws_step_delay d o * 2) max_reconnect_delay) rest := rfl
    rw [h1, ih, h2]
    rfl

/-- C3: from startup, a run of failed connection attempts sleeps
5, 10, 20, 40, 60, 60, … seconds before the successive retries (the
delay doubles after each failure, capped at 60); and after any
successful connection — also one whose receive loop ended on a
mid-stream error frame — the delay is reset, so the sleep before the
next retry is 5 and a following failure run again sleeps
5, 10, 20, 40, 60, 60, …. -/
theorem c3_reconnect_backoff (s : List WsOutcome) (o : WsOutcome) (n : Nat)
    (ho : o ≠ .exn) :
    ws_delays (List.replicate n .exn)
      = (List.range n).map
          (fun i => min (initial_reconnect_delay * 2 ^ i) max_reconnect_delay)
    ∧ ws_delays (s ++ o :: List.replicate n .exn)
      = ws_delays s
        ++ (List.range (n + 1)).map
          (fun i => min (initial_reconnect_delay * 2 ^ i) max_reconnect_delay) := by
  constructor
  · exact ws_loop_delays_exn n initial_reconnect_delay (by decide)
  · rw [ws_delays, ws_loop_delays_append]
    congr 1
    have hstep : ws_step_delay (ws_final initial_reconnect_delay s) o
        = initial_reconnect_delay := by
      cases o with
      | exn => exact absurd rfl ho
      | errorFrame => rfl
      | closedFrame => rfl
      | streamEnd => rfl
    have h1 : ws_loop_delays (ws_final initial_reconnect_delay s)
          (o :: List.replicate n .exn)
        = initial_reconnect_delay
          :: ws_loop_delays (min (initial_reconnect_delay * 2) max_reconnect_delay)
            (List.replicate n .exn) := by
      simp only [ws_loop_delays, hstep]
    rw [h1, ws_loop_delays_exn n _ (Nat.min_le_right _ _)]
    rw [List.range_succ_eq_map, List.map_cons, List.map_map]
    congr 1
    refine List.map_congr_left (fun i _ => ?_)
    show min (min (initial_reconnect_delay * 2) max_reconnect_delay * 2 ^ i)
          max_reconnect_delay
        = min (initial_reconnect_delay * 2 ^ (i + 1)) max_reconnect_delay
    rw [min_cap_double]
    congr 1
    ring

/-- C3 witness: seven straight failures sleep 5, 10, 20, 40, 60, 60, 60;
after two failures and a connection ended by a mid-stream error frame,
the next sleeps are 5, 10, 20, 40. -/
theorem c3_reconnect_backoff_witness :
    ws_delays (List.replicate 7 .exn)
      = (List.range 7).map
          (fun i => min (initial_reconnect_delay * 2 ^ i) max_reconnect_delay)
    ∧ ws_delays ([.exn, .exn] ++ .errorFrame :: List.replicate 3 .exn)
      = ws_delays [.exn, .exn]
        ++ (List.range 4).map
          (fun i => min (initial_reconnect_delay * 2 ^ i) max_reconnect_delay) :=
  ⟨(c3_reconnect_backoff [] .errorFrame 7 (by decide)).1,
   (c3_reconnect_backoff [.exn, .exn] .errorFrame 3 (by decide)).2⟩

/-- The configuration consumed by `AstrBookAdapter._run`. -/
structure RunConfig where
  token : Str
  auto_browse : Bool
deriving DecidableEq

/-- The tasks `_run` can create. -/
inductive TaskKind where
  | wsTask : TaskKind
  | browseTask : TaskKind
deriving DecidableEq

/-- `AstrBookAdapter._run`: with an empty token (`if not self.token:`)
it logs and returns with no task created; otherwise it always creates
the WebSocket connection-loop task and, when `auto_browse` is set, the
browse-scheduler task.  Totality of this definition models that the
credential check returns instead of raising. -/
def run_tasks (cfg : RunConfig) : List TaskKind :=
  if cfg.token = [] then []
  else .wsTask :: (if cfg.auto_browse then [.browseTask] else [])

/-- C8: an absent (empty) authentication token makes `_run` return
without creating the connection-loop or browse-scheduler tasks, and this
is the only condition under which no task at all is started — with a
nonempty token the connection loop task is always created. -/
theorem c8_token_gate (cfg : RunConfig) :
    (cfg.token = [] → run_tasks cfg = [])
    ∧ (run_tasks cfg = [] ↔ cfg.token = [])
    ∧ (cfg.token ≠ [] → TaskKind.wsTask ∈ run_tasks cfg) := by
  refine ⟨fun h => by simp [run_tasks, h], ⟨?_, fun h => by simp [run_tasks, h]⟩,
    fun h => by simp [run_tasks, h]⟩
  intro h
  by_contra hne
  simp [run_tasks, hne] at h

/-- C8 witness: the empty-token configuration creates no task; a
configured token creates the connection-loop task. -/
theorem c8_token_gate_witness :
    run_tasks ⟨[], true⟩ = []
    ∧ TaskKind.wsTask ∈ run_tasks ⟨str "tok", true⟩ :=
  ⟨(c8_token_gate ⟨[], true⟩).1 rfl,
   (c8_token_gate ⟨str "tok", true⟩).2.2 (by decide)⟩

end AstrBook
